import Mathlib

/-!
Verification of the soil filesystem façade (src/src/lib.rs) and its CLI
front end (src/src/main.rs) against the repository specification.

The Rust library is a set of thin wrappers over std::fs calls.  We give a
shallow embedding: the OS filesystem is a state value (`FS`), each
std::fs primitive is a Lean function on that state returning
`Except IOError` results, and each façade function of lib.rs is
translated line by line on top of those primitives.

Modelling conventions, fixed throughout:
* Rust strings are their UTF-8 byte representation (`Bytes`, a list of
  byte values); Rust `String` equality is byte-list equality, which is
  exact for UTF-8.  OS-level names and file contents are likewise byte
  lists, so non-UTF-8 directory entry names are representable.
* Paths are interpreted by the modelled OS by splitting on the byte 47
  (the slash); the working directory is the root, which always exists.
* Symbolic-link traversal (a path whose non-final lookup crosses a
  symlink) is outside the modelled fragment: primitives that would have
  to follow a link return the distinguished error `IOError.other 0`.
  No claim exercises that fragment.
* Modification times are not modelled; metadata carries size, type and
  permission mode bits.
-/

namespace Soil

/-- A byte value (the embedding does not need the upper bound 256 and
leaves it implicit). -/
abbrev Byte := Nat

/-- A byte string: the representation of Rust strings, OS path strings,
directory entry names and file contents. -/
abbrev Bytes := List Byte

/-- A parsed path: the list of path components produced by the modelled
OS when it interprets a path string. -/
abbrev RPath := List Bytes

/-- The OS error categories surfaced by std::io::Error in this program;
`other n` covers everything else. -/
inductive IOError where
  | notFound
  | permissionDenied
  | alreadyExists
  | notADirectory
  | isADirectory
  | directoryNotEmpty
  | invalidData
  | invalidInput
  | other (n : Nat)
  deriving DecidableEq, Repr

/-- A filesystem node: a regular file with content and permission mode
bits, a directory with mode bits, or a symbolic link storing its raw
target string. -/
inductive Node where
  | file (content : Bytes) (mode : Nat)
  | dir (mode : Nat)
  | symlink (target : Bytes)
  deriving DecidableEq, Repr

/-- The modelled filesystem state: an association list from parsed paths
to nodes, plus the set of paths on which the OS denies access
(modelling permission-denied outcomes). -/
structure FS where
  entries : List (RPath × Node)
  denied : List RPath
  deriving DecidableEq, Repr

/-- File type reported by metadata. -/
inductive FType where
  | file
  | dir
  | symlink
  deriving DecidableEq, Repr

/-- The fragment of std::fs::Metadata that the program reads: size, file
type and permission mode bits. -/
structure Meta where
  size : Nat
  ftype : FType
  mode : Nat
  deriving DecidableEq, Repr

/-- Splits a path string at slash bytes and drops empty components:
the modelled OS path interpretation. -/
def parsePath (p : Bytes) : RPath :=
  (p.splitOn 47).filter (fun c => c ≠ [])

/-- First-match association-list lookup; the root path (no components)
always exists as a directory (the working directory). -/
def findNode : List (RPath × Node) → RPath → Option Node
  | [], _ => none
  | (k, v) :: rest, q => if k = q then some v else findNode rest q

/-- Looks a parsed path up in the filesystem; the root is always a
directory. -/
def lookupFS (fs : FS) (q : RPath) : Option Node :=
  match q with
  | [] => some (.dir 0o755)
  | _ => findNode fs.entries q

/-- Whether the OS denies access on this path. -/
def deniedB (fs : FS) (q : RPath) : Bool :=
  fs.denied.any (fun d => d = q)

/-- Adds a binding for a key that is expected to be absent. -/
def addEntry (fs : FS) (k : RPath) (v : Node) : FS :=
  ⟨(k, v) :: fs.entries, fs.denied⟩

/-- Replaces the first binding of a key, or appends one if absent. -/
def setEntry : List (RPath × Node) → RPath → Node → List (RPath × Node)
  | [], k, v => [(k, v)]
  | (k1, v1) :: rest, k, v =>
      if k1 = k then (k, v) :: rest else (k1, v1) :: setEntry rest k v

/-- Removes every binding of a key. -/
def removeEntry (fs : FS) (k : RPath) : FS :=
  ⟨fs.entries.filter (fun e => e.1 ≠ k), fs.denied⟩

/-- Removes a key and every key below it (recursive directory removal). -/
def removeSubtree (fs : FS) (k : RPath) : FS :=
  ⟨fs.entries.filter (fun e => ¬ (e.1.take k.length = k)), fs.denied⟩

/-- If the key is the given directory extended by exactly one component,
returns that component (the entry name), else none. -/
def childOf (d q : RPath) : Option Bytes :=
  if q = d ++ [q.getLastD []] then some (q.getLastD []) else none

/-- The names of the immediate entries of a directory, in entry-list
order. -/
def childNames (fs : FS) (d : RPath) : List Bytes :=
  fs.entries.filterMap (fun e => childOf d e.1)

/-! UTF-8 validity and lossy decoding.

Rust strings are UTF-8 byte sequences; OsStr::to_str succeeds exactly on
valid UTF-8, and OsStr/Path::to_string_lossy replaces ill-formed
sequences with U+FFFD (bytes EF BF BD).  `validUtf8` is the standard
well-formedness check (continuation bytes, overlong, surrogate and
out-of-range exclusions).  `lossyDecode` keeps well-formed sequences
verbatim; on ill-formed input its replacement granularity is
per-leading-byte, a simplification of the substitution of maximal
subparts, which agrees with the real function on all valid input
(the only case the claims consume). -/

/-- Whether a byte is a UTF-8 continuation byte (0x80 to 0xBF). -/
def isCont (b : Byte) : Bool := 0x80 ≤ b ∧ b ≤ 0xBF

/-- Allowed second byte of a three-byte sequence, given the leading
byte: excludes overlong encodings (E0) and surrogates (ED). -/
def snd3Ok (b0 b1 : Byte) : Bool :=
  if b0 = 0xE0 then 0xA0 ≤ b1 ∧ b1 ≤ 0xBF
  else if b0 = 0xED then 0x80 ≤ b1 ∧ b1 ≤ 0x9F
  else isCont b1

/-- Allowed second byte of a four-byte sequence, given the leading byte:
excludes overlong encodings (F0) and code points above U+10FFFF (F4). -/
def snd4Ok (b0 b1 : Byte) : Bool :=
  if b0 = 0xF0 then 0x90 ≤ b1 ∧ b1 ≤ 0xBF
  else if b0 = 0xF4 then 0x80 ≤ b1 ∧ b1 ≤ 0x8F
  else isCont b1

/-- Whether an optional lookahead byte is present and a continuation
byte. -/
def contQ : Option Byte → Bool
  | some b => isCont b
  | none => false

/-- Whether an optional lookahead byte is a legal second byte of a
three-byte sequence led by b0. -/
def snd3Q (b0 : Byte) : Option Byte → Bool
  | some b1 => snd3Ok b0 b1
  | none => false

/-- Whether an optional lookahead byte is a legal second byte of a
four-byte sequence led by b0. -/
def snd4Q (b0 : Byte) : Option Byte → Bool
  | some b1 => snd4Ok b0 b1
  | none => false

/-- UTF-8 well-formedness of a byte string. -/
def validUtf8 : Bytes → Bool
  | [] => true
  | b0 :: rest =>
    if b0 ≤ 0x7F then validUtf8 rest
    else if 0xC2 ≤ b0 ∧ b0 ≤ 0xDF then
      contQ rest[0]? && validUtf8 (rest.drop 1)
    else if 0xE0 ≤ b0 ∧ b0 ≤ 0xEF then
      snd3Q b0 rest[0]? && contQ rest[1]? && validUtf8 (rest.drop 2)
    else if 0xF0 ≤ b0 ∧ b0 ≤ 0xF4 then
      snd4Q b0 rest[0]? && contQ rest[1]? && contQ rest[2]? && validUtf8 (rest.drop 3)
    else false
termination_by l => l.length
decreasing_by all_goals simp [List.length_drop] <;> omega

/-- The replacement bytes EF BF BD (U+FFFD). -/
def replBytes : Bytes := [0xEF, 0xBF, 0xBD]

/-- Lossy UTF-8 decoding at the byte level: well-formed sequences pass
through verbatim, an ill-formed leading byte becomes U+FFFD. -/
def lossyDecode : Bytes → Bytes
  | [] => []
  | b0 :: rest =>
    if b0 ≤ 0x7F then b0 :: lossyDecode rest
    else if 0xC2 ≤ b0 ∧ b0 ≤ 0xDF then
      if contQ rest[0]? then b0 :: (rest.take 1 ++ lossyDecode (rest.drop 1))
      else replBytes ++ lossyDecode rest
    else if 0xE0 ≤ b0 ∧ b0 ≤ 0xEF then
      if snd3Q b0 rest[0]? && contQ rest[1]? then
        b0 :: (rest.take 2 ++ lossyDecode (rest.drop 2))
      else replBytes ++ lossyDecode rest
    else if 0xF0 ≤ b0 ∧ b0 ≤ 0xF4 then
      if snd4Q b0 rest[0]? && contQ rest[1]? && contQ rest[2]? then
        b0 :: (rest.take 3 ++ lossyDecode (rest.drop 3))
      else replBytes ++ lossyDecode rest
    else replBytes ++ lossyDecode rest
termination_by l => l.length
decreasing_by all_goals simp [List.length_drop] <;> omega

theorem lossyDecode_of_valid : ∀ l : Bytes, validUtf8 l = true → lossyDecode l = l := by
  intro l
  induction l using validUtf8.induct with
  | case1 => intro _; simp [lossyDecode]
  | case2 b0 rest h ih =>
      intro hv
      simp only [validUtf8] at hv
      rw [if_pos h] at hv
      simp only [lossyDecode]
      rw [if_pos h, ih hv]
  | case3 b0 rest h1 h2 ih =>
      intro hv
      simp only [validUtf8] at hv
      rw [if_neg h1, if_pos h2, Bool.and_eq_true] at hv
      obtain ⟨ha, hb⟩ := hv
      simp only [lossyDecode]
      rw [if_neg h1, if_pos h2, if_pos ha, ih hb, List.take_append_drop]
  | case4 b0 rest h1 h2 h3 ih =>
      intro hv
      simp only [validUtf8] at hv
      rw [if_neg h1, if_neg h2, if_pos h3, Bool.and_eq_true, Bool.and_eq_true] at hv
      obtain ⟨⟨ha, hb⟩, hc⟩ := hv
      simp only [lossyDecode]
      rw [if_neg h1, if_neg h2, if_pos h3, if_pos (by rw [ha, hb]; rfl :
        (snd3Q b0 rest[0]? && contQ rest[1]?) = true), ih hc, List.take_append_drop]
  | case5 b0 rest h1 h2 h3 h4 ih =>
      intro hv
      simp only [validUtf8] at hv
      rw [if_neg h1, if_neg h2, if_neg h3, if_pos h4, Bool.and_eq_true, Bool.and_eq_true,
        Bool.and_eq_true] at hv
      obtain ⟨⟨⟨ha, hb⟩, hc⟩, hd⟩ := hv
      simp only [lossyDecode]
      rw [if_neg h1, if_neg h2, if_neg h3, if_pos h4, if_pos (by rw [ha, hb, hc]; rfl :
        (snd4Q b0 rest[0]? && contQ rest[1]? && contQ rest[2]?) = true), ih hd,
        List.take_append_drop]
  | case6 b0 rest h1 h2 h3 h4 =>
      intro hv
      simp only [validUtf8] at hv
      rw [if_neg h1, if_neg h2, if_neg h3, if_neg h4] at hv
      cases hv


/-! The modelled std::fs primitives.  Each matches the documented
behaviour of the corresponding Rust standard-library call on the
modelled filesystem state.  Fixed default permission modes stand in for
the umask-dependent creation modes; no claim depends on their values. -/

/-- Renders a parsed path as an absolute path string. -/
def renderAbs (q : RPath) : Bytes :=
  if q = [] then [47] else q.foldl (fun acc c => acc ++ 47 :: c) []

/-- std::fs::canonicalize.  Symlink resolution and the working-directory
prefix are beyond the modelled fragment: the model absolutizes the
parsed components and preserves the error behaviour, which is all the
program observes in the verified claims. -/
def osCanonicalize (fs : FS) (p : Bytes) : Except IOError Bytes :=
  let q := parsePath p
  if deniedB fs q then .error .permissionDenied
  else match lookupFS fs q with
    | some _ => .ok (renderAbs q)
    | none => .error .notFound

/-- The permission mode an overwritten file ends up with: the old mode,
unless forceMode is set (std::fs::copy forces the source mode onto the
destination). -/
def overwriteMode (forceMode : Bool) (newMode oldMode : Nat) : Nat :=
  if forceMode then newMode else oldMode

/-- Core of std::fs::write: create or truncate a regular file.  A fresh
file gets newMode; an overwrite keeps the old mode unless forceMode is
set. -/
def osWriteCore (fs : FS) (p c : Bytes) (newMode : Nat) (forceMode : Bool) :
    Except IOError FS :=
  let q := parsePath p
  if deniedB fs q then .error .permissionDenied
  else if q = [] then .error .isADirectory
  else match lookupFS fs q.dropLast with
    | some (.dir _) =>
      match lookupFS fs q with
      | some (.file _ m) =>
          .ok ⟨setEntry fs.entries q (.file c (overwriteMode forceMode newMode m)), fs.denied⟩
      | some (.dir _) => .error .isADirectory
      | some (.symlink _) => .error (.other 0)
      | none => .ok (addEntry fs q (.file c newMode))
    | some (.file _ _) => .error .notADirectory
    | some (.symlink _) => .error (.other 0)
    | none => .error .notFound

/-- std::fs::write. -/
def osWrite (fs : FS) (p c : Bytes) : Except IOError FS :=
  osWriteCore fs p c 0o644 false

/-- std::fs::copy: returns the number of bytes copied; the destination
receives the source content and permission mode.  Hard-link inode
sharing is not involved here; copying a non-file fails. -/
def osCopy (fs : FS) (src dst : Bytes) : Except IOError (Nat × FS) :=
  let s := parsePath src
  if deniedB fs s then .error .permissionDenied
  else match lookupFS fs s with
    | some (.file c m) =>
      match osWriteCore fs dst c m true with
      | .ok fs1 => .ok (c.length, fs1)
      | .error e => .error e
    | some _ => .error .invalidInput
    | none => .error .notFound

/-- Worker of std::fs::create_dir_all: walks the components, creating
each missing prefix as a directory; an existing directory on the way is
fine, an existing non-directory is an error. -/
def mkdirs (fs : FS) (cur : RPath) : List Bytes → Except IOError FS
  | [] => .ok fs
  | c :: restComps =>
    let nxt := cur ++ [c]
    if deniedB fs nxt then .error .permissionDenied
    else match lookupFS fs nxt with
      | some (.dir _) => mkdirs fs nxt restComps
      | some _ => .error .alreadyExists
      | none => mkdirs (addEntry fs nxt (.dir 0o755)) nxt restComps

/-- std::fs::create_dir_all. -/
def osCreateDirAll (fs : FS) (p : Bytes) : Except IOError FS :=
  mkdirs fs [] (parsePath p)

/-- std::fs::create_dir: the parent must already exist. -/
def osCreateDir (fs : FS) (p : Bytes) : Except IOError FS :=
  let q := parsePath p
  if deniedB fs q then .error .permissionDenied
  else match lookupFS fs q with
    | some _ => .error .alreadyExists
    | none => match lookupFS fs q.dropLast with
      | some (.dir _) => .ok (addEntry fs q (.dir 0o755))
      | some _ => .error .notADirectory
      | none => .error .notFound

/-- std::fs::exists: Ok(whether the path exists), or an error (for
example permission denied) when existence cannot be determined. -/
def osExists (fs : FS) (p : Bytes) : Except IOError Bool :=
  let q := parsePath p
  if deniedB fs q then .error .permissionDenied
  else .ok (lookupFS fs q).isSome

/-- std::fs::read_dir: the entry iterator, materialized as a list of
per-entry results carrying the raw OS entry names. -/
def osReadDir (fs : FS) (p : Bytes) : Except IOError (List (Except IOError Bytes)) :=
  let q := parsePath p
  if deniedB fs q then .error .permissionDenied
  else match lookupFS fs q with
    | some (.dir _) => .ok ((childNames fs q).map Except.ok)
    | some (.file _ _) => .error .notADirectory
    | some (.symlink _) => .error (.other 0)
    | none => .error .notFound

/-- std::fs::remove_file: removes a file or a symlink, not a directory. -/
def osRemoveFile (fs : FS) (p : Bytes) : Except IOError FS :=
  let q := parsePath p
  if deniedB fs q then .error .permissionDenied
  else match lookupFS fs q with
    | some (.file _ _) => .ok (removeEntry fs q)
    | some (.symlink _) => .ok (removeEntry fs q)
    | some (.dir _) => .error .isADirectory
    | none => .error .notFound

/-- std::fs::remove_dir: the directory must be empty. -/
def osRemoveDir (fs : FS) (p : Bytes) : Except IOError FS :=
  let q := parsePath p
  if deniedB fs q then .error .permissionDenied
  else match lookupFS fs q with
    | some (.dir _) =>
        if childNames fs q = [] then .ok (removeEntry fs q)
        else .error .directoryNotEmpty
    | some _ => .error .notADirectory
    | none => .error .notFound

/-- std::fs::remove_dir_all: denial anywhere in the subtree surfaces as
permission denied. -/
def osRemoveDirAll (fs : FS) (p : Bytes) : Except IOError FS :=
  let q := parsePath p
  if fs.denied.any (fun d => d.take q.length = q) then .error .permissionDenied
  else match lookupFS fs q with
    | some (.dir _) => .ok (removeSubtree fs q)
    | some _ => .error .notADirectory
    | none => .error .notFound

/-- std::fs::rename: moves the subtree rooted at the source over the
destination (replacement of a non-empty destination directory is not
distinguished; no claim exercises rename success semantics). -/
def osRename (fs : FS) (src dst : Bytes) : Except IOError FS :=
  let q := parsePath src
  let r := parsePath dst
  if deniedB fs q || deniedB fs r then .error .permissionDenied
  else match lookupFS fs q with
    | none => .error .notFound
    | some _ =>
      .ok ⟨fs.entries.filterMap (fun e =>
            if e.1.take q.length = q then some (r ++ e.1.drop q.length, e.2)
            else if e.1.take r.length = r then none
            else some e),
          fs.denied⟩

/-- std::fs::metadata (follows symlinks; following is outside the
modelled fragment, see the header note). -/
def osMetadata (fs : FS) (p : Bytes) : Except IOError Meta :=
  let q := parsePath p
  if deniedB fs q then .error .permissionDenied
  else match lookupFS fs q with
    | some (.file c m) => .ok ⟨c.length, .file, m⟩
    | some (.dir m) => .ok ⟨0, .dir, m⟩
    | some (.symlink _) => .error (.other 0)
    | none => .error .notFound

/-- std::fs::read. -/
def osRead (fs : FS) (p : Bytes) : Except IOError Bytes :=
  let q := parsePath p
  if deniedB fs q then .error .permissionDenied
  else match lookupFS fs q with
    | some (.file c _) => .ok c
    | some (.dir _) => .error .isADirectory
    | some (.symlink _) => .error (.other 0)
    | none => .error .notFound

/-- std::fs::read_to_string: reads the bytes and demands valid UTF-8
(error kind InvalidData otherwise); a Rust String is its UTF-8 bytes, so
success returns the same bytes. -/
def osReadToString (fs : FS) (p : Bytes) : Except IOError Bytes :=
  match osRead fs p with
  | .ok c => if validUtf8 c then .ok c else .error .invalidData
  | .error e => .error e

/-- std::fs::hard_link: the new name receives the same content and mode
(inode sharing after creation is beyond the modelled fragment; no claim
depends on it). -/
def osHardLink (fs : FS) (original link : Bytes) : Except IOError FS :=
  let q := parsePath original
  let r := parsePath link
  if deniedB fs q || deniedB fs r then .error .permissionDenied
  else match lookupFS fs q with
    | some (.file c m) =>
      match lookupFS fs r with
      | some _ => .error .alreadyExists
      | none => match lookupFS fs r.dropLast with
        | some (.dir _) => .ok (addEntry fs r (.file c m))
        | some _ => .error .notADirectory
        | none => .error .notFound
    | some _ => .error (.other 1)
    | none => .error .notFound

/-- std::fs::read_link: returns the stored target verbatim; fails on a
non-symlink. -/
def osReadLink (fs : FS) (p : Bytes) : Except IOError Bytes :=
  let q := parsePath p
  if deniedB fs q then .error .permissionDenied
  else match lookupFS fs q with
    | some (.symlink t) => .ok t
    | some _ => .error .invalidInput
    | none => .error .notFound

/-- std::fs::set_permissions: replaces the permission mode bits. -/
def osSetPermissions (fs : FS) (p : Bytes) (mode : Nat) : Except IOError FS :=
  let q := parsePath p
  if deniedB fs q then .error .permissionDenied
  else match lookupFS fs q with
    | some (.file c _) => .ok ⟨setEntry fs.entries q (.file c mode), fs.denied⟩
    | some (.dir _) => .ok ⟨setEntry fs.entries q (.dir mode), fs.denied⟩
    | some (.symlink _) => .error (.other 0)
    | none => .error .notFound

/-- std::fs::symlink_metadata: metadata of the entry itself, symlinks
not followed. -/
def osSymlinkMetadata (fs : FS) (p : Bytes) : Except IOError Meta :=
  let q := parsePath p
  if deniedB fs q then .error .permissionDenied
  else match lookupFS fs q with
    | some (.file c m) => .ok ⟨c.length, .file, m⟩
    | some (.dir m) => .ok ⟨0, .dir, m⟩
    | some (.symlink t) => .ok ⟨t.length, .symlink, 0o777⟩
    | none => .error .notFound

/-- std::os::unix::fs::symlink: stores the raw target string at the link
path; the target need not exist. -/
def osSymlink (fs : FS) (original link : Bytes) : Except IOError FS :=
  let r := parsePath link
  if deniedB fs r then .error .permissionDenied
  else match lookupFS fs r with
    | some _ => .error .alreadyExists
    | none => match lookupFS fs r.dropLast with
      | some (.dir _) => .ok (addEntry fs r (.symlink original))
      | some _ => .error .notADirectory
      | none => .error .notFound

/-! The façade of src/src/lib.rs, function by function.  Every path or
content parameter of the Rust functions is generic over AsRef of str
(respectively AsRef of u8 slice); the embedding takes the referenced
byte string directly, which is what as_ref() passes on.  Mutating
operations thread the filesystem state. -/

/-- lib.rs trace_to_root: fs::canonicalize, Ok mapped through
to_string_lossy, Err passed through. -/
def trace_to_root (fs : FS) (path : Bytes) : Except IOError Bytes :=
  match osCanonicalize fs path with
  | .ok p => .ok (lossyDecode p)
  | .error error => .error error

/-- lib.rs propagate_leaf: fs::copy, Ok(_) mapped to unit (the state
thread keeps the updated filesystem), Err passed through. -/
def propagate_leaf (fs : FS) (scion rootstock : Bytes) : Except IOError FS :=
  match osCopy fs scion rootstock with
  | .ok (_, fs1) => .ok fs1
  | .error error => .error error

/-- lib.rs grow_branch: fs::create_dir_all, Ok(_) mapped to unit, Err
passed through. -/
def grow_branch (fs : FS) (path : Bytes) : Except IOError FS :=
  match osCreateDirAll fs path with
  | .ok fs1 => .ok fs1
  | .error error => .error error

/-- lib.rs exists: fs::exists(path).unwrap_or(false). -/
def «exists» (fs : FS) (path : Bytes) : Bool :=
  match osExists fs path with
  | .ok b => b
  | .error _ => false

/-- The entry loop of lib.rs survey_canopy: pushes each entry name that
file_name().to_str() accepts (valid UTF-8), returns the first entry
error. -/
def collectNames : List (Except IOError Bytes) → Except IOError (List Bytes)
  | [] => .ok []
  | .error error :: _ => .error error
  | .ok n :: rest =>
    match collectNames rest with
    | .error e => .error e
    | .ok ns => .ok (if validUtf8 n then n :: ns else ns)

/-- lib.rs survey_canopy: fs::read_dir with the question-mark operator,
then the entry loop. -/
def survey_canopy (fs : FS) (path : Bytes) : Except IOError (List Bytes) :=
  match osReadDir fs path with
  | .ok entries => collectNames entries
  | .error e => .error e

/-- lib.rs sprout_branch: fs::create_dir, passed through. -/
def sprout_branch (fs : FS) (path : Bytes) : Except IOError FS :=
  osCreateDir fs path

/-- lib.rs shed_leaf: fs::remove_file, passed through. -/
def shed_leaf (fs : FS) (path : Bytes) : Except IOError FS :=
  osRemoveFile fs path

/-- lib.rs prune_branch: fs::remove_dir, passed through. -/
def prune_branch (fs : FS) (path : Bytes) : Except IOError FS :=
  osRemoveDir fs path

/-- lib.rs clear_grove: fs::remove_dir_all, passed through. -/
def clear_grove (fs : FS) (path : Bytes) : Except IOError FS :=
  osRemoveDirAll fs path

/-- lib.rs transplant: fs::rename, passed through. -/
def transplant (fs : FS) (src dst : Bytes) : Except IOError FS :=
  osRename fs src dst

/-- lib.rs examine_specimen: fs::metadata, passed through. -/
def examine_specimen (fs : FS) (path : Bytes) : Except IOError Meta :=
  osMetadata fs path

/-- lib.rs harvest_essence: fs::read, passed through. -/
def harvest_essence (fs : FS) (path : Bytes) : Except IOError Bytes :=
  osRead fs path

/-- lib.rs read_chronicle: fs::read_to_string, passed through. -/
def read_chronicle (fs : FS) (path : Bytes) : Except IOError Bytes :=
  osReadToString fs path

/-- lib.rs inscribe_leaf: fs::write(path, contents), passed through. -/
def inscribe_leaf (fs : FS) (path contents : Bytes) : Except IOError FS :=
  osWrite fs path contents

/-- lib.rs create_hard_graft: fs::hard_link, passed through. -/
def create_hard_graft (fs : FS) (original link : Bytes) : Except IOError FS :=
  osHardLink fs original link

/-- lib.rs read_soft_connection: fs::read_link, Ok mapped through
to_string_lossy, Err passed through. -/
def read_soft_connection (fs : FS) (path : Bytes) : Except IOError Bytes :=
  match osReadLink fs path with
  | .ok path_buf => .ok (lossyDecode path_buf)
  | .error error => .error error

/-- lib.rs adjust_vitality: fs::set_permissions, passed through. -/
def adjust_vitality (fs : FS) (path : Bytes) (permissions : Nat) : Except IOError FS :=
  osSetPermissions fs path permissions

/-- lib.rs examine_outer_characteristics: fs::symlink_metadata, passed
through. -/
def examine_outer_characteristics (fs : FS) (path : Bytes) : Except IOError Meta :=
  osSymlinkMetadata fs path

/-- lib.rs create_soft_connection (unix): std::os::unix::fs::symlink,
passed through. -/
def create_soft_connection (fs : FS) (original link : Bytes) : Except IOError FS :=
  osSymlink fs original link


/-! Path-argument polymorphism of the façade interface.

Every path parameter in src/src/lib.rs is a generic P bounded by
AsRef of str.  Whether a call type-checks is therefore decided by which
argument types implement that trait in the Rust standard library; the
table below records those facts for the four shapes the spec names
(the standard library implements AsRef of str for str and String only,
and AsRef of Path for all four). -/

/-- The four path-argument shapes named by the spec: a text literal, an
owned string, an owned path buffer (PathBuf) and a path reference
(a Path borrow). -/
inductive PathArgKind where
  | strRef
  | ownedString
  | ownedPathBuf
  | pathRef
  deriving DecidableEq, Repr

/-- Which of the four shapes implement AsRef of str in the Rust standard
library. -/
def implsAsRefStr : PathArgKind → Bool
  | .strRef => true
  | .ownedString => true
  | .ownedPathBuf => false
  | .pathRef => false

/-- Which of the four shapes implement AsRef of Path in the Rust
standard library: all of them. -/
def implsAsRefPath : PathArgKind → Bool
  | _ => true

/-- Whether a call passing a path argument of the given shape to a
façade function of src/src/lib.rs type-checks: every such parameter is
bounded by AsRef of str. -/
def facadeAccepts (k : PathArgKind) : Bool := implsAsRefStr k

/-! The CLI front end of src/src/main.rs.

main.rs imports the façade under plain operation names (resolve_path,
copy_file, ensure_dir, create_dir, list_dir, remove_file,
remove_empty_dir, remove_dir_all, move_path, metadata, read_bytes,
read_text, write_file, create_hard_link, create_symlink, read_symlink,
set_permissions, symlink_metadata, exists); the lib.rs revision under
src/ exports the same one-per-primitive operations under its botanical
names, and the spec fixes the 1:1 correspondence, so the embedding
binds each subcommand arm to the corresponding façade function above.
Printing is modelled by the number of println calls to each stream, and
process::exit(1) by exit code 1 (falling off the end of main is exit
code 0).  The windows-only Chmod branch is not modelled (claim C10 is
about unix). -/

/-- The subcommand enum of main.rs with its string arguments. -/
inductive Commands where
  | Resolve (path : Bytes)
  | Copy (src dst : Bytes)
  | Mkdirp (path : Bytes)
  | Mkdir (path : Bytes)
  | Ls (path : Bytes)
  | Rm (path : Bytes)
  | Rmdir (path : Bytes)
  | Rmrf (path : Bytes)
  | Mv (src dst : Bytes)
  | Stat (path : Bytes)
  | ReadBytes (path : Bytes)
  | ReadText (path : Bytes)
  | Write (path content : Bytes)
  | Hardlink (original link : Bytes)
  | Symlink (original link : Bytes)
  | Readlink (path : Bytes)
  | Chmod (path mode : Bytes)
  | Lstat (path : Bytes)
  | Exists (path : Bytes)
  deriving DecidableEq, Repr

/-- Observable outcome of one CLI invocation: the process exit code, how
many lines were printed to standard output and to standard error, and
the final filesystem state. -/
structure CLIOutcome where
  exitCode : Nat
  stdoutLines : Nat
  stderrLines : Nat
  fs : FS
  deriving DecidableEq, Repr

/-- The ASCII bytes of the mode keyword "readonly". -/
def readonlyKw : Bytes := [114, 101, 97, 100, 111, 110, 108, 121]

/-- The ASCII bytes of the mode keyword "writable". -/
def writableKw : Bytes := [119, 114, 105, 116, 97, 98, 108, 101]

/-- The 32-bit value of the Rust expression !0o222 on u32: all ones XOR
the write-permission mask. -/
def notWriteMask : Nat := (2 ^ 32 - 1) ^^^ 0o222

/-- The mode computation of the unix Chmod arm of main.rs: "readonly"
clears all write bits (owner, group, other), "writable" sets the owner
write bit without broadening the others, anything else is invalid. -/
def chmodNewMode (mode : Bytes) (current : Nat) : Option Nat :=
  if mode = readonlyKw then some (current &&& notWriteMask)
  else if mode = writableKw then some (current ||| 0o200)
  else none

/-- One run of main (src/src/main.rs) on a parsed command: each arm
calls its façade operation, prints a success report to standard output,
or prints to standard error and exits 1 on an error. -/
def runCLI (cmd : Commands) (fs : FS) : CLIOutcome :=
  match cmd with
  | .Resolve path =>
    match trace_to_root fs path with
    | .ok _ => ⟨0, 1, 0, fs⟩
    | .error _ => ⟨1, 0, 1, fs⟩
  | .Copy src dst =>
    match propagate_leaf fs src dst with
    | .ok fs1 => ⟨0, 1, 0, fs1⟩
    | .error _ => ⟨1, 0, 1, fs⟩
  | .Mkdirp path =>
    match grow_branch fs path with
    | .ok fs1 => ⟨0, 1, 0, fs1⟩
    | .error _ => ⟨1, 0, 1, fs⟩
  | .Mkdir path =>
    match sprout_branch fs path with
    | .ok fs1 => ⟨0, 1, 0, fs1⟩
    | .error _ => ⟨1, 0, 1, fs⟩
  | .Ls path =>
    match survey_canopy fs path with
    | .ok contents => ⟨0, 1 + contents.length, 0, fs⟩
    | .error _ => ⟨1, 0, 1, fs⟩
  | .Rm path =>
    match shed_leaf fs path with
    | .ok fs1 => ⟨0, 1, 0, fs1⟩
    | .error _ => ⟨1, 0, 1, fs⟩
  | .Rmdir path =>
    match prune_branch fs path with
    | .ok fs1 => ⟨0, 1, 0, fs1⟩
    | .error _ => ⟨1, 0, 1, fs⟩
  | .Rmrf path =>
    match clear_grove fs path with
    | .ok fs1 => ⟨0, 1, 0, fs1⟩
    | .error _ => ⟨1, 0, 1, fs⟩
  | .Mv src dst =>
    match transplant fs src dst with
    | .ok fs1 => ⟨0, 1, 0, fs1⟩
    | .error _ => ⟨1, 0, 1, fs⟩
  | .Stat path =>
    match examine_specimen fs path with
    | .ok _ => ⟨0, 4, 0, fs⟩
    | .error _ => ⟨1, 0, 1, fs⟩
  | .ReadBytes path =>
    match harvest_essence fs path with
    | .ok _ => ⟨0, 2, 0, fs⟩
    | .error _ => ⟨1, 0, 1, fs⟩
  | .ReadText path =>
    match read_chronicle fs path with
    | .ok _ => ⟨0, 2, 0, fs⟩
    | .error _ => ⟨1, 0, 1, fs⟩
  | .Write path content =>
    match inscribe_leaf fs path content with
    | .ok fs1 => ⟨0, 1, 0, fs1⟩
    | .error _ => ⟨1, 0, 1, fs⟩
  | .Hardlink original link =>
    match create_hard_graft fs original link with
    | .ok fs1 => ⟨0, 1, 0, fs1⟩
    | .error _ => ⟨1, 0, 1, fs⟩
  | .Symlink original link =>
    match create_soft_connection fs original link with
    | .ok fs1 => ⟨0, 1, 0, fs1⟩
    | .error _ => ⟨1, 0, 1, fs⟩
  | .Readlink path =>
    match read_soft_connection fs path with
    | .ok _ => ⟨0, 1, 0, fs⟩
    | .error _ => ⟨1, 0, 1, fs⟩
  | .Chmod path mode =>
    match examine_specimen fs path with
    | .ok md =>
      match chmodNewMode mode md.mode with
      | some nm =>
        match adjust_vitality fs path nm with
        | .ok fs1 => ⟨0, 1, 0, fs1⟩
        | .error _ => ⟨1, 0, 1, fs⟩
      | none => ⟨1, 0, 1, fs⟩
    | .error _ => ⟨1, 0, 1, fs⟩
  | .Lstat path =>
    match examine_outer_characteristics fs path with
    | .ok _ => ⟨0, 4, 0, fs⟩
    | .error _ => ⟨1, 0, 1, fs⟩
  | .Exists path =>
    ⟨if «exists» fs path then 0 else 1, 1, 0, fs⟩

/-- Forgets the success value of a façade result. -/
def asUnit {α : Type} : Except IOError α → Except IOError Unit
  | .ok _ => .ok ()
  | .error e => .error e

/-- The result of the façade call chain a CLI arm performs, when the arm
runs one to completion: none for the Exists arm (the existence check is
total) and for a Chmod arm stopped by an invalid mode keyword before
set_permissions. -/
def armFacadeResult (cmd : Commands) (fs : FS) : Option (Except IOError Unit) :=
  match cmd with
  | .Resolve path => some (asUnit (trace_to_root fs path))
  | .Copy src dst => some (asUnit (propagate_leaf fs src dst))
  | .Mkdirp path => some (asUnit (grow_branch fs path))
  | .Mkdir path => some (asUnit (sprout_branch fs path))
  | .Ls path => some (asUnit (survey_canopy fs path))
  | .Rm path => some (asUnit (shed_leaf fs path))
  | .Rmdir path => some (asUnit (prune_branch fs path))
  | .Rmrf path => some (asUnit (clear_grove fs path))
  | .Mv src dst => some (asUnit (transplant fs src dst))
  | .Stat path => some (asUnit (examine_specimen fs path))
  | .ReadBytes path => some (asUnit (harvest_essence fs path))
  | .ReadText path => some (asUnit (read_chronicle fs path))
  | .Write path content => some (asUnit (inscribe_leaf fs path content))
  | .Hardlink original link => some (asUnit (create_hard_graft fs original link))
  | .Symlink original link => some (asUnit (create_soft_connection fs original link))
  | .Readlink path => some (asUnit (read_soft_connection fs path))
  | .Chmod path mode =>
    match examine_specimen fs path with
    | .ok md =>
      match chmodNewMode mode md.mode with
      | some nm => some (asUnit (adjust_vitality fs path nm))
      | none => none
    | .error e => some (.error e)
  | .Lstat path => some (asUnit (examine_outer_characteristics fs path))
  | .Exists _ => none


theorem findNode_setEntry_self (es : List (RPath × Node)) (k : RPath) (v : Node) :
    findNode (setEntry es k v) k = some v := by
  induction es with
  | nil => simp [setEntry, findNode]
  | cons e rest ih =>
    obtain ⟨k1, v1⟩ := e
    by_cases h : k1 = k
    · simp [setEntry, h, findNode]
    · simp [setEntry, h, findNode, ih]

theorem lookupFS_ne_nil (fs : FS) (q : RPath) (h : q ≠ []) :
    lookupFS fs q = findNode fs.entries q := by
  cases q with
  | nil => exact absurd rfl h
  | cons a t => rfl

theorem osWriteCore_reads_back (fs : FS) (p c : Bytes) (nm : Nat) (fm : Bool) (fs1 : FS)
    (h : osWriteCore fs p c nm fm = .ok fs1) :
    osRead fs1 p = .ok c := by
  simp only [osWriteCore] at h
  split at h
  · exact Except.noConfusion h
  split at h
  · exact Except.noConfusion h
  split at h
  · split at h
    · have hd : ¬ deniedB fs (parsePath p) = true := by assumption
      have hq : ¬ parsePath p = [] := by assumption
      injection h with h1
      subst h1
      simp only [deniedB] at hd
      simp only [osRead, deniedB]
      rw [if_neg hd, lookupFS_ne_nil _ _ hq]
      rw [findNode_setEntry_self]
    · exact Except.noConfusion h
    · exact Except.noConfusion h
    · have hd : ¬ deniedB fs (parsePath p) = true := by assumption
      have hq : ¬ parsePath p = [] := by assumption
      injection h with h1
      subst h1
      simp only [deniedB] at hd
      simp only [osRead, deniedB, addEntry]
      rw [if_neg hd, lookupFS_ne_nil _ _ hq]
      simp [findNode]
  · exact Except.noConfusion h
  · exact Except.noConfusion h
  · exact Except.noConfusion h

/-- C1: the spec says every façade operation accepts text literals, owned
strings, owned path buffers and path references.  lib.rs bounds every
path parameter by AsRef of str, which PathBuf and borrowed Path do not
implement, so calls passing them are rejected even though all four shapes
implement AsRef of Path (the repository's own examples/path_ergonomics.rs
passes PathBuf and Path borrows and cannot type-check against this
lib.rs). -/
theorem facade_rejects_path_typed_arguments :
    facadeAccepts .strRef = true ∧ facadeAccepts .ownedString = true ∧
    facadeAccepts .ownedPathBuf = false ∧ facadeAccepts .pathRef = false ∧
    implsAsRefPath .ownedPathBuf = true ∧ implsAsRefPath .pathRef = true := by
  decide

/-- C2: the existence check returns the underlying boolean on success and
degrades every failure of the underlying query, permission denied
included, to false; by its type it can never surface an error. -/
theorem exists_never_errors (fs : FS) (p : Bytes) :
    (∀ b, osExists fs p = .ok b → «exists» fs p = b) ∧
    (∀ e, osExists fs p = .error e → «exists» fs p = false) := by
  constructor
  · intro b h
    simp [«exists», h]
  · intro e h
    simp [«exists», h]

theorem exists_never_errors_witness :
    osExists ⟨[], [[[97]]]⟩ [97] = .error .permissionDenied ∧
    «exists» ⟨[], [[[97]]]⟩ [97] = false :=
  ⟨by rfl, (exists_never_errors ⟨[], [[[97]]]⟩ [97]).2 .permissionDenied (by rfl)⟩

/-- C5: a successful write is read back exactly: harvest_essence returns
the written bytes, and read_chronicle returns the written text (its
UTF-8 bytes) whenever the written content is a Rust string. -/
theorem write_read_roundtrip :
    (∀ (fs : FS) (p c : Bytes) (fs1 : FS),
        inscribe_leaf fs p c = .ok fs1 → harvest_essence fs1 p = .ok c) ∧
    (∀ (fs : FS) (p c : Bytes) (fs1 : FS), validUtf8 c = true →
        inscribe_leaf fs p c = .ok fs1 → read_chronicle fs1 p = .ok c) := by
  constructor
  · intro fs p c fs1 h
    exact osWriteCore_reads_back fs p c _ _ fs1 h
  · intro fs p c fs1 hv h
    have hr := osWriteCore_reads_back fs p c _ _ fs1 h
    simp [read_chronicle, osReadToString, hr, hv]

theorem write_read_roundtrip_witness :
    inscribe_leaf ⟨[], []⟩ [97] [104, 105] =
      .ok ⟨[([[97]], .file [104, 105] 0o644)], []⟩ ∧
    harvest_essence ⟨[([[97]], .file [104, 105] 0o644)], []⟩ [97] = .ok [104, 105] ∧
    read_chronicle ⟨[([[97]], .file [104, 105] 0o644)], []⟩ [97] = .ok [104, 105] :=
  ⟨by rfl,
   write_read_roundtrip.1 ⟨[], []⟩ [97] [104, 105] _ (by rfl),
   write_read_roundtrip.2 ⟨[], []⟩ [97] [104, 105] _ (by simp [validUtf8]) (by rfl)⟩

/-- C8: reading back a successfully created symbolic link returns exactly
the target string passed at creation (targets are Rust strings, so the
lossy conversion in read_soft_connection is the identity on them). -/
theorem symlink_target_roundtrip (fs : FS) (target link : Bytes) (fs1 : FS)
    (hv : validUtf8 target = true)
    (h : create_soft_connection fs target link = .ok fs1) :
    read_soft_connection fs1 link = .ok target := by
  simp only [create_soft_connection, osSymlink] at h
  split at h
  · exact Except.noConfusion h
  split at h
  · exact Except.noConfusion h
  split at h
  · have hd : ¬ deniedB fs (parsePath link) = true := by assumption
    have hnone : lookupFS fs (parsePath link) = none := by assumption
    injection h with h1
    subst h1
    have hq : parsePath link ≠ [] := by
      intro hnil
      rw [hnil] at hnone
      simp [lookupFS] at hnone
    simp only [deniedB] at hd
    simp only [read_soft_connection, osReadLink, addEntry, deniedB]
    rw [if_neg hd, lookupFS_ne_nil _ _ hq]
    simp [findNode, lossyDecode_of_valid target hv]
  · exact Except.noConfusion h
  · exact Except.noConfusion h

theorem symlink_target_roundtrip_witness :
    validUtf8 [97] = true ∧
    create_soft_connection ⟨[], []⟩ [97] [98] =
      .ok ⟨[([[98]], .symlink [97])], []⟩ ∧
    read_soft_connection ⟨[([[98]], .symlink [97])], []⟩ [98] = .ok [97] :=
  ⟨by simp [validUtf8],
   by rfl,
   symlink_target_roundtrip ⟨[], []⟩ [97] [98] _ (by simp [validUtf8]) (by rfl)⟩

theorem collectNames_all_ok (l : List Bytes) :
    collectNames (l.map Except.ok) = .ok (l.filter (fun n => validUtf8 n)) := by
  induction l with
  | nil => rfl
  | cons n rest ih =>
    by_cases hn : validUtf8 n = true <;>
      simp [collectNames, ih, List.filter_cons, hn]

theorem collectNames_first_error (l : List Bytes) (e : IOError)
    (rest : List (Except IOError Bytes)) :
    collectNames (l.map Except.ok ++ .error e :: rest) = .error e := by
  induction l with
  | nil => rfl
  | cons n t ih => simp [collectNames, ih]

theorem osReadDir_ok_shape (fs : FS) (p : Bytes) (es : List (Except IOError Bytes))
    (h : osReadDir fs p = .ok es) :
    es = (childNames fs (parsePath p)).map Except.ok ∧
      deniedB fs (parsePath p) = false ∧
      ∃ m, lookupFS fs (parsePath p) = some (.dir m) := by
  simp only [osReadDir] at h
  split at h
  · exact Except.noConfusion h
  split at h
  · have hd : ¬ deniedB fs (parsePath p) = true := by assumption
    rename_i m hdir
    injection h with h1
    exact ⟨h1.symm, by simpa using hd, m, hdir⟩
  · exact Except.noConfusion h
  · exact Except.noConfusion h
  · exact Except.noConfusion h

theorem survey_canopy_ok_eq (fs : FS) (p : Bytes) (l : List Bytes)
    (h : survey_canopy fs p = .ok l) :
    l = (childNames fs (parsePath p)).filter (fun n => validUtf8 n) := by
  simp only [survey_canopy] at h
  split at h
  · rename_i es hes
    obtain ⟨h1, _, _⟩ := osReadDir_ok_shape fs p es hes
    subst h1
    rw [collectNames_all_ok] at h
    injection h with h2
    exact h2.symm
  · exact Except.noConfusion h

/-- Sample filesystem for the listing claims: a directory d (byte 100)
holding one entry whose name is the single byte 255, which is not valid
UTF-8. -/
def fsBadName : FS :=
  ⟨[([[100]], .dir 0o755), ([[100], [255]], .file [] 0o644)], []⟩

/-- Sample filesystem: a directory d (byte 100) holding two files f, g
(bytes 102, 103) and one subdirectory s (byte 115). -/
def fsThree : FS :=
  ⟨[([[100]], .dir 0o755), ([[100], [102]], .file [] 0o644),
    ([[100], [103]], .file [] 0o644), ([[100], [115]], .dir 0o755)], []⟩

/-- C9: when the directory read itself succeeds, survey_canopy succeeds
and returns exactly the entry names that are valid UTF-8; an entry name
that is not valid UTF-8 is silently omitted, so the result can have
fewer names than the directory has entries. -/
theorem survey_canopy_skips_nonUtf8 (fs : FS) (p : Bytes)
    (h : ∃ es, osReadDir fs p = .ok es) :
    survey_canopy fs p =
      .ok ((childNames fs (parsePath p)).filter (fun n => validUtf8 n)) ∧
    ∀ n, validUtf8 n = false →
      n ∉ (childNames fs (parsePath p)).filter (fun n => validUtf8 n) := by
  obtain ⟨es, hes⟩ := h
  obtain ⟨h1, _, _⟩ := osReadDir_ok_shape fs p es hes
  subst h1
  constructor
  · simp only [survey_canopy, hes]
    exact collectNames_all_ok _
  · intro n hn
    simp [List.mem_filter, hn]

theorem survey_canopy_skips_nonUtf8_witness :
    survey_canopy ⟨[([[100]], .dir 0o755), ([[100], [255]], .file [] 0o644),
      ([[100], [97]], .file [] 0o644)], []⟩ [100] = .ok [[97]] := by
  have h := survey_canopy_skips_nonUtf8
    ⟨[([[100]], .dir 0o755), ([[100], [255]], .file [] 0o644),
      ([[100], [97]], .file [] 0o644)], []⟩ [100]
    ⟨[.ok [255], .ok [97]], by rfl⟩
  have hc : childNames ⟨[([[100]], .dir 0o755), ([[100], [255]], .file [] 0o644),
      ([[100], [97]], .file [] 0o644)], []⟩ (parsePath [100]) = [[255], [97]] := by rfl
  have h255 : validUtf8 [255] = false := by simp [validUtf8]
  have h97 : validUtf8 [97] = true := by simp [validUtf8]
  rw [h.1, hc]
  simp [List.filter_cons, h255, h97]

/-- C7 as stated is false: this readable directory contains exactly one
entry (named by the single byte 255), yet listing it returns the empty
collection — the entry is omitted because its name is not valid UTF-8. -/
theorem survey_canopy_omits_entry_cex :
    childNames fsBadName (parsePath [100]) = [[255]] ∧
    survey_canopy fsBadName [100] = .ok [] := by
  constructor
  · rfl
  · have hv : validUtf8 [255] = false := by simp [validUtf8]
    show collectNames [.ok [255]] = .ok []
    simp [collectNames, hv]

/-- C7 corrected: a successful listing returns exactly the entry names
that are valid UTF-8 — none of those is omitted and none is invented —
while entries whose names are not valid UTF-8 are dropped; in
particular, listing a directory holding two files and one subdirectory
(with ordinary names) returns exactly those three names. -/
theorem survey_canopy_exact_valid_names :
    (∀ (fs : FS) (p : Bytes) (l : List Bytes), survey_canopy fs p = .ok l →
       ∀ n, n ∈ l ↔ n ∈ childNames fs (parsePath p) ∧ validUtf8 n = true) ∧
    survey_canopy fsThree [100] = .ok [[102], [103], [115]] := by
  constructor
  · intro fs p l h n
    rw [survey_canopy_ok_eq fs p l h, List.mem_filter]
  · show collectNames ([[102], [103], [115]].map Except.ok) = .ok [[102], [103], [115]]
    rw [collectNames_all_ok]
    simp [validUtf8]

theorem survey_canopy_exact_valid_names_witness :
    [102] ∈ childNames fsThree (parsePath [100]) ∧ validUtf8 [102] = true :=
  (survey_canopy_exact_valid_names.1 fsThree [100] [[102], [103], [115]]
    (by show collectNames ([[102], [103], [115]].map Except.ok) = .ok [[102], [103], [115]]
        rw [collectNames_all_ok]
        simp [validUtf8])
    [102]).mp (by simp)

/-- C3: every façade operation other than the existence check forwards a
failure of its underlying OS call verbatim — the returned error is
exactly the error the call produced, with no translation, wrapping,
classification, retry or recovery.  The survey_canopy conjunct covers
the directory-open call, and the collectNames conjunct covers a failure
of the entry iterator (the first failing entry's error is returned as
is). -/
theorem facade_error_passthrough :
    (∀ fs p e, osCanonicalize fs p = .error e → trace_to_root fs p = .error e) ∧
    (∀ fs s d e, osCopy fs s d = .error e → propagate_leaf fs s d = .error e) ∧
    (∀ fs p e, osCreateDirAll fs p = .error e → grow_branch fs p = .error e) ∧
    (∀ fs p e, osCreateDir fs p = .error e → sprout_branch fs p = .error e) ∧
    (∀ fs p e, osReadDir fs p = .error e → survey_canopy fs p = .error e) ∧
    (∀ (l : List Bytes) (e : IOError) (rest : List (Except IOError Bytes)),
       collectNames (l.map Except.ok ++ .error e :: rest) = .error e) ∧
    (∀ fs p e, osRemoveFile fs p = .error e → shed_leaf fs p = .error e) ∧
    (∀ fs p e, osRemoveDir fs p = .error e → prune_branch fs p = .error e) ∧
    (∀ fs p e, osRemoveDirAll fs p = .error e → clear_grove fs p = .error e) ∧
    (∀ fs s d e, osRename fs s d = .error e → transplant fs s d = .error e) ∧
    (∀ fs p e, osMetadata fs p = .error e → examine_specimen fs p = .error e) ∧
    (∀ fs p e, osRead fs p = .error e → harvest_essence fs p = .error e) ∧
    (∀ fs p e, osReadToString fs p = .error e → read_chronicle fs p = .error e) ∧
    (∀ fs p c e, osWrite fs p c = .error e → inscribe_leaf fs p c = .error e) ∧
    (∀ fs o l e, osHardLink fs o l = .error e → create_hard_graft fs o l = .error e) ∧
    (∀ fs p e, osReadLink fs p = .error e → read_soft_connection fs p = .error e) ∧
    (∀ fs p m e, osSetPermissions fs p m = .error e → adjust_vitality fs p m = .error e) ∧
    (∀ fs p e, osSymlinkMetadata fs p = .error e →
       examine_outer_characteristics fs p = .error e) ∧
    (∀ fs o l e, osSymlink fs o l = .error e → create_soft_connection fs o l = .error e) :=
  ⟨fun fs p e h => by simp [trace_to_root, h],
   fun fs s d e h => by simp [propagate_leaf, h],
   fun fs p e h => by simp [grow_branch, h],
   fun fs p e h => h,
   fun fs p e h => by simp [survey_canopy, h],
   fun l e rest => collectNames_first_error l e rest,
   fun fs p e h => h,
   fun fs p e h => h,
   fun fs p e h => h,
   fun fs s d e h => h,
   fun fs p e h => h,
   fun fs p e h => h,
   fun fs p e h => h,
   fun fs p c e h => h,
   fun fs o l e h => h,
   fun fs p e h => by simp [read_soft_connection, h],
   fun fs p m e h => h,
   fun fs p e h => h,
   fun fs o l e h => h⟩

theorem facade_error_passthrough_witness :
    trace_to_root ⟨[], []⟩ [97] = .error .notFound ∧
    propagate_leaf ⟨[], []⟩ [97] [98] = .error .notFound ∧
    grow_branch ⟨[], [[[97]]]⟩ [97] = .error .permissionDenied ∧
    sprout_branch ⟨[], []⟩ [97, 47, 98] = .error .notFound ∧
    survey_canopy ⟨[], []⟩ [97] = .error .notFound ∧
    collectNames [.error .notFound] = .error .notFound ∧
    shed_leaf ⟨[], []⟩ [97] = .error .notFound ∧
    prune_branch ⟨[], []⟩ [97] = .error .notFound ∧
    clear_grove ⟨[], []⟩ [97] = .error .notFound ∧
    transplant ⟨[], []⟩ [97] [98] = .error .notFound ∧
    examine_specimen ⟨[], []⟩ [97] = .error .notFound ∧
    harvest_essence ⟨[], []⟩ [97] = .error .notFound ∧
    read_chronicle ⟨[], []⟩ [97] = .error .notFound ∧
    inscribe_leaf ⟨[], [[[97]]]⟩ [97] [] = .error .permissionDenied ∧
    create_hard_graft ⟨[], []⟩ [97] [98] = .error .notFound ∧
    read_soft_connection ⟨[], []⟩ [97] = .error .notFound ∧
    adjust_vitality ⟨[], []⟩ [97] 0 = .error .notFound ∧
    examine_outer_characteristics ⟨[], []⟩ [97] = .error .notFound ∧
    create_soft_connection ⟨[], []⟩ [97] [98, 47, 99] = .error .notFound :=
  ⟨facade_error_passthrough.1 ⟨[], []⟩ [97] .notFound (by rfl),
   facade_error_passthrough.2.1 ⟨[], []⟩ [97] [98] .notFound (by rfl),
   facade_error_passthrough.2.2.1 ⟨[], [[[97]]]⟩ [97] .permissionDenied (by rfl),
   facade_error_passthrough.2.2.2.1 ⟨[], []⟩ [97, 47, 98] .notFound (by rfl),
   facade_error_passthrough.2.2.2.2.1 ⟨[], []⟩ [97] .notFound (by rfl),
   facade_error_passthrough.2.2.2.2.2.1 [] .notFound [],
   facade_error_passthrough.2.2.2.2.2.2.1 ⟨[], []⟩ [97] .notFound (by rfl),
   facade_error_passthrough.2.2.2.2.2.2.2.1 ⟨[], []⟩ [97] .notFound (by rfl),
   facade_error_passthrough.2.2.2.2.2.2.2.2.1 ⟨[], []⟩ [97] .notFound (by rfl),
   facade_error_passthrough.2.2.2.2.2.2.2.2.2.1 ⟨[], []⟩ [97] [98] .notFound (by rfl),
   facade_error_passthrough.2.2.2.2.2.2.2.2.2.2.1 ⟨[], []⟩ [97] .notFound (by rfl),
   facade_error_passthrough.2.2.2.2.2.2.2.2.2.2.2.1 ⟨[], []⟩ [97] .notFound (by rfl),
   facade_error_passthrough.2.2.2.2.2.2.2.2.2.2.2.2.1 ⟨[], []⟩ [97] .notFound (by rfl),
   facade_error_passthrough.2.2.2.2.2.2.2.2.2.2.2.2.2.1 ⟨[], [[[97]]]⟩ [97] []
     .permissionDenied (by rfl),
   facade_error_passthrough.2.2.2.2.2.2.2.2.2.2.2.2.2.2.1 ⟨[], []⟩ [97] [98] .notFound (by rfl),
   facade_error_passthrough.2.2.2.2.2.2.2.2.2.2.2.2.2.2.2.1 ⟨[], []⟩ [97] .notFound (by rfl),
   facade_error_passthrough.2.2.2.2.2.2.2.2.2.2.2.2.2.2.2.2.1 ⟨[], []⟩ [97] 0 .notFound
     (by rfl),
   facade_error_passthrough.2.2.2.2.2.2.2.2.2.2.2.2.2.2.2.2.2.1 ⟨[], []⟩ [97] .notFound
     (by rfl),
   facade_error_passthrough.2.2.2.2.2.2.2.2.2.2.2.2.2.2.2.2.2.2 ⟨[], []⟩ [97] [98, 47, 99]
     .notFound (by rfl)⟩

theorem lookupFS_addEntry_ne (fs : FS) (k : RPath) (v : Node) (q : RPath) (hq : q ≠ k) :
    lookupFS (addEntry fs k v) q = lookupFS fs q := by
  cases q with
  | nil => rfl
  | cons a t =>
    show findNode ((k, v) :: fs.entries) (a :: t) = findNode fs.entries (a :: t)
    have hk : k ≠ a :: t := fun h => hq h.symm
    simp [findNode, hk]

theorem lookupFS_addEntry_self (fs : FS) (k : RPath) (v : Node) (hk : k ≠ []) :
    lookupFS (addEntry fs k v) k = some v := by
  cases k with
  | nil => exact absurd rfl hk
  | cons a t =>
    show findNode ((a :: t, v) :: fs.entries) (a :: t) = some v
    simp [findNode]

theorem mkdirs_denied_eq (todo : List Bytes) :
    ∀ (fs : FS) (cur : RPath) (fs1 : FS),
      mkdirs fs cur todo = .ok fs1 → fs1.denied = fs.denied := by
  induction todo with
  | nil =>
    intro fs cur fs1 h
    injection h with h1
    rw [h1]
  | cons c rest ih =>
    intro fs cur fs1 h
    simp only [mkdirs] at h
    split at h
    · exact Except.noConfusion h
    split at h
    · exact ih fs (cur ++ [c]) fs1 h
    · exact Except.noConfusion h
    · exact ih (addEntry fs (cur ++ [c]) (.dir 0o755)) (cur ++ [c]) fs1 h

theorem mkdirs_preserves (todo : List Bytes) :
    ∀ (fs : FS) (cur : RPath) (fs1 : FS),
      mkdirs fs cur todo = .ok fs1 →
      ∀ (q : RPath) (v : Node), lookupFS fs q = some v → lookupFS fs1 q = some v := by
  induction todo with
  | nil =>
    intro fs cur fs1 h q v hv
    injection h with h1
    rw [← h1]
    exact hv
  | cons c rest ih =>
    intro fs cur fs1 h q v hv
    simp only [mkdirs] at h
    split at h
    · exact Except.noConfusion h
    split at h
    · exact ih fs (cur ++ [c]) fs1 h q v hv
    · exact Except.noConfusion h
    · have hnone : lookupFS fs (cur ++ [c]) = none := by assumption
      refine ih (addEntry fs (cur ++ [c]) (.dir 0o755)) (cur ++ [c]) fs1 h q v ?_
      have hq : q ≠ cur ++ [c] := by
        intro he
        rw [he, hnone] at hv
        exact Option.noConfusion hv
      rw [lookupFS_addEntry_ne fs (cur ++ [c]) (.dir 0o755) q hq]
      exact hv

theorem mkdirs_idem (todo : List Bytes) :
    ∀ (fs : FS) (cur : RPath) (fs1 : FS),
      mkdirs fs cur todo = .ok fs1 → mkdirs fs1 cur todo = .ok fs1 := by
  induction todo with
  | nil =>
    intro fs cur fs1 h
    rfl
  | cons c rest ih =>
    intro fs cur fs1 h
    simp only [mkdirs] at h ⊢
    split at h
    · exact Except.noConfusion h
    · have hd : ¬ deniedB fs (cur ++ [c]) = true := by assumption
      have hdenied : fs1.denied = fs.denied := by
        split at h
        · exact mkdirs_denied_eq rest fs (cur ++ [c]) fs1 h
        · exact Except.noConfusion h
        · have := mkdirs_denied_eq rest (addEntry fs (cur ++ [c]) (.dir 0o755)) (cur ++ [c]) fs1 h
          exact this
      have hd1 : ¬ deniedB fs1 (cur ++ [c]) = true := by
        simp only [deniedB, hdenied] at *
        exact hd
      rw [if_neg hd1]
      split at h
      · rename_i m hdir
        have hdir1 : lookupFS fs1 (cur ++ [c]) = some (.dir m) :=
          mkdirs_preserves rest fs (cur ++ [c]) fs1 h (cur ++ [c]) (.dir m) hdir
        rw [hdir1]
        exact ih fs (cur ++ [c]) fs1 h
      · exact Except.noConfusion h
      · have hdir1 : lookupFS fs1 (cur ++ [c]) = some (.dir 0o755) := by
          refine mkdirs_preserves rest (addEntry fs (cur ++ [c]) (.dir 0o755)) (cur ++ [c])
            fs1 h (cur ++ [c]) (.dir 0o755) ?_
          exact lookupFS_addEntry_self fs (cur ++ [c]) (.dir 0o755) (by simp)
        rw [hdir1]
        exact ih (addEntry fs (cur ++ [c]) (.dir 0o755)) (cur ++ [c]) fs1 h

/-- Accessibility of a component chain below cur: each successive prefix
is not denied and is bound to a directory. -/
def allDirs (fs : FS) (cur : RPath) : List Bytes → Prop
  | [] => True
  | c :: rest =>
      deniedB fs (cur ++ [c]) = false ∧
      (∃ m, lookupFS fs (cur ++ [c]) = some (.dir m)) ∧
      allDirs fs (cur ++ [c]) rest

theorem mkdirs_of_allDirs (todo : List Bytes) :
    ∀ (fs : FS) (cur : RPath), allDirs fs cur todo → mkdirs fs cur todo = .ok fs := by
  induction todo with
  | nil => intro fs cur _; rfl
  | cons c rest ih =>
    intro fs cur h
    obtain ⟨hd, ⟨m, hdir⟩, hrest⟩ := h
    simp only [mkdirs]
    rw [if_neg (by simp [hd]), hdir]
    exact ih fs (cur ++ [c]) hrest

/-- C6: creating a directory tree with grow_branch is idempotent — after
one successful call a second call on the same path succeeds with no
error and changes nothing — and the call succeeds outright when the
directory (with its chain of parents) already exists and is
accessible. -/
theorem grow_branch_idempotent :
    (∀ (fs : FS) (p : Bytes) (fs1 : FS),
        grow_branch fs p = .ok fs1 → grow_branch fs1 p = .ok fs1) ∧
    (∀ (fs : FS) (p : Bytes),
        allDirs fs [] (parsePath p) → grow_branch fs p = .ok fs) := by
  constructor
  · intro fs p fs1 h
    simp only [grow_branch, osCreateDirAll] at h ⊢
    split at h
    · rename_i fs2 hmk
      injection h with h1
      subst h1
      rw [mkdirs_idem (parsePath p) fs [] fs2 hmk]
    · exact Except.noConfusion h
  · intro fs p h
    simp only [grow_branch, osCreateDirAll]
    rw [mkdirs_of_allDirs (parsePath p) fs [] h]

theorem grow_branch_idempotent_witness :
    grow_branch ⟨[], []⟩ [97, 47, 98] =
      .ok ⟨[([[97], [98]], .dir 0o755), ([[97]], .dir 0o755)], []⟩ ∧
    grow_branch ⟨[([[97], [98]], .dir 0o755), ([[97]], .dir 0o755)], []⟩ [97, 47, 98] =
      .ok ⟨[([[97], [98]], .dir 0o755), ([[97]], .dir 0o755)], []⟩ ∧
    grow_branch ⟨[([[97]], .dir 0o755)], []⟩ [97] = .ok ⟨[([[97]], .dir 0o755)], []⟩ :=
  ⟨by rfl,
   grow_branch_idempotent.1 ⟨[], []⟩ [97, 47, 98]
     ⟨[([[97], [98]], .dir 0o755), ([[97]], .dir 0o755)], []⟩ (by rfl),
   grow_branch_idempotent.2 ⟨[([[97]], .dir 0o755)], []⟩ [97]
     (by simp only [allDirs]
         exact ⟨by rfl, ⟨0o755, by rfl⟩, trivial⟩)⟩

/-- C10: on unix, the CLI chmod arm computes the new mode from the
file's current mode: "readonly" clears exactly the three write bits
(other 0o002, group 0o020, owner 0o200 — bits 1, 4 and 7) and leaves
every other bit unchanged; "writable" sets exactly the owner write bit
and leaves every other bit (group and other write included) unchanged;
any other keyword makes the process exit 1 with an error line and an
unchanged filesystem; and a valid keyword applies exactly the computed
mode through set_permissions. -/
theorem chmod_mode_semantics :
    (∀ m : Nat, m < 2 ^ 32 →
      ((m &&& notWriteMask).testBit 1 = false ∧
       (m &&& notWriteMask).testBit 4 = false ∧
       (m &&& notWriteMask).testBit 7 = false) ∧
      (∀ i, i ≠ 1 → i ≠ 4 → i ≠ 7 →
        (m &&& notWriteMask).testBit i = m.testBit i)) ∧
    (∀ m : Nat,
      (m ||| 0o200).testBit 7 = true ∧
      ∀ i, i ≠ 7 → (m ||| 0o200).testBit i = m.testBit i) ∧
    (∀ (fs : FS) (p mode : Bytes), mode ≠ readonlyKw → mode ≠ writableKw →
      runCLI (.Chmod p mode) fs = ⟨1, 0, 1, fs⟩) ∧
    (∀ (fs : FS) (p c : Bytes) (m0 : Nat),
      lookupFS fs (parsePath p) = some (.file c m0) →
      deniedB fs (parsePath p) = false →
      runCLI (.Chmod p readonlyKw) fs =
        ⟨0, 1, 0, ⟨setEntry fs.entries (parsePath p)
          (.file c (m0 &&& notWriteMask)), fs.denied⟩⟩) ∧
    (∀ (fs : FS) (p c : Bytes) (m0 : Nat),
      lookupFS fs (parsePath p) = some (.file c m0) →
      deniedB fs (parsePath p) = false →
      runCLI (.Chmod p writableKw) fs =
        ⟨0, 1, 0, ⟨setEntry fs.entries (parsePath p)
          (.file c (m0 ||| 0o200)), fs.denied⟩⟩) := by
  have hmaskbit : ∀ i, notWriteMask.testBit i = (decide (i < 32) ^^ (146 : Nat).testBit i) := by
    intro i
    rw [notWriteMask]
    show ((2 ^ 32 - 1) ^^^ 146).testBit i = _
    rw [Nat.testBit_xor, Nat.testBit_two_pow_sub_one]
  refine ⟨?_, ?_, ?_, ?_, ?_⟩
  · intro m hm
    constructor
    · refine ⟨?_, ?_, ?_⟩ <;>
      · rw [Nat.testBit_and, hmaskbit]
        simp only [Bool.and_eq_false_iff]
        right
        decide
    · intro i h1 h4 h7
      rw [Nat.testBit_and, hmaskbit i]
      by_cases hi : i < 32
      · have h146 : (146 : Nat).testBit i = false := by
          by_cases hi8 : i < 8
          · interval_cases i <;>
              first
              | decide
              | exact absurd rfl h1
              | exact absurd rfl h4
              | exact absurd rfl h7
          · exact Nat.testBit_lt_two_pow
              (lt_of_lt_of_le (by norm_num)
                (Nat.pow_le_pow_right (by norm_num) (le_of_not_lt hi8)))
        simp [hi, h146]
      · have hmz : m.testBit i = false :=
          Nat.testBit_lt_two_pow
            (lt_of_lt_of_le hm (Nat.pow_le_pow_right (by norm_num) (le_of_not_lt hi)))
        simp [hi, hmz]
  · intro m
    constructor
    · rw [Nat.testBit_or]
      simp [show (128 : Nat).testBit 7 = true by decide]
    · intro i h7
      rw [Nat.testBit_or]
      have h128 : (128 : Nat).testBit i = false := by
        by_cases hi8 : i < 8
        · interval_cases i <;> first | decide | exact absurd rfl h7
        · exact Nat.testBit_lt_two_pow
            (lt_of_lt_of_le (by norm_num)
              (Nat.pow_le_pow_right (by norm_num) (le_of_not_lt hi8)))
      simp [h128]
  · intro fs p mode hr hw
    simp only [runCLI]
    cases hex : examine_specimen fs p with
    | error e => rfl
    | ok md => simp [chmodNewMode, hr, hw]
  · intro fs p c m0 hf hd
    have hex : examine_specimen fs p = .ok ⟨c.length, .file, m0⟩ := by
      simp only [examine_specimen, osMetadata]
      rw [if_neg (by simp [hd]), hf]
    have hset : adjust_vitality fs p (m0 &&& notWriteMask) =
        .ok ⟨setEntry fs.entries (parsePath p) (.file c (m0 &&& notWriteMask)), fs.denied⟩ := by
      simp only [adjust_vitality, osSetPermissions]
      rw [if_neg (by simp [hd]), hf]
    simp only [runCLI, hex]
    rw [show chmodNewMode readonlyKw m0 = some (m0 &&& notWriteMask) by simp [chmodNewMode]]
    simp [hset]
  · intro fs p c m0 hf hd
    have hex : examine_specimen fs p = .ok ⟨c.length, .file, m0⟩ := by
      simp only [examine_specimen, osMetadata]
      rw [if_neg (by simp [hd]), hf]
    have hset : adjust_vitality fs p (m0 ||| 0o200) =
        .ok ⟨setEntry fs.entries (parsePath p) (.file c (m0 ||| 0o200)), fs.denied⟩ := by
      simp only [adjust_vitality, osSetPermissions]
      rw [if_neg (by simp [hd]), hf]
    simp only [runCLI, hex]
    rw [show chmodNewMode writableKw m0 = some (m0 ||| 0o200) by simp [chmodNewMode, readonlyKw, writableKw]]
    simp [hset]

theorem chmod_mode_semantics_witness :
    ((0o777 &&& notWriteMask).testBit 1 = false ∧
     (0o777 &&& notWriteMask).testBit 4 = false ∧
     (0o777 &&& notWriteMask).testBit 7 = false) ∧
    (0o777 &&& notWriteMask).testBit 0 = (0o777 : Nat).testBit 0 ∧
    ((0o444 : Nat) ||| 0o200).testBit 7 = true ∧
    ((0o444 : Nat) ||| 0o200).testBit 4 = (0o444 : Nat).testBit 4 ∧
    runCLI (.Chmod [97] [120]) ⟨[], []⟩ = ⟨1, 0, 1, ⟨[], []⟩⟩ ∧
    runCLI (.Chmod [97] readonlyKw) ⟨[([[97]], .file [] 0o666)], []⟩ =
      ⟨0, 1, 0, ⟨setEntry [([[97]], .file [] 0o666)] [[97]]
        (.file [] (0o666 &&& notWriteMask)), []⟩⟩ ∧
    runCLI (.Chmod [97] writableKw) ⟨[([[97]], .file [] 0o444)], []⟩ =
      ⟨0, 1, 0, ⟨setEntry [([[97]], .file [] 0o444)] [[97]]
        (.file [] (0o444 ||| 0o200)), []⟩⟩ :=
  ⟨(chmod_mode_semantics.1 0o777 (by norm_num)).1,
   (chmod_mode_semantics.1 0o777 (by norm_num)).2 0 (by decide) (by decide) (by decide),
   (chmod_mode_semantics.2.1 0o444).1,
   (chmod_mode_semantics.2.1 0o444).2 4 (by decide),
   chmod_mode_semantics.2.2.1 ⟨[], []⟩ [97] [120] (by decide) (by decide),
   chmod_mode_semantics.2.2.2.1 ⟨[([[97]], .file [] 0o666)], []⟩ [97] [] 0o666
     (by rfl) (by rfl),
   chmod_mode_semantics.2.2.2.2 ⟨[([[97]], .file [] 0o444)], []⟩ [97] [] 0o444
     (by rfl) (by rfl)⟩

/-- C4: for every CLI invocation, if the façade call chain the arm runs
succeeds, the process prints at least one line to standard output, none
to standard error, and exits 0; if it fails, it prints one error line to
standard error and exits 1; and the existence-check subcommand exits
with 0 or 1 according to whether the path exists (printing its report to
standard output either way). -/
theorem cli_exit_codes (cmd : Commands) (fs : FS) :
    (armFacadeResult cmd fs = some (.ok ()) →
      (runCLI cmd fs).exitCode = 0 ∧ 1 ≤ (runCLI cmd fs).stdoutLines ∧
      (runCLI cmd fs).stderrLines = 0) ∧
    (∀ e, armFacadeResult cmd fs = some (.error e) →
      (runCLI cmd fs).exitCode = 1 ∧ (runCLI cmd fs).stderrLines = 1 ∧
      (runCLI cmd fs).stdoutLines = 0) ∧
    (∀ p, cmd = .Exists p →
      (runCLI cmd fs).exitCode = (if «exists» fs p then 0 else 1) ∧
      1 ≤ (runCLI cmd fs).stdoutLines) := by
  cases cmd
  case Chmod path mode =>
    refine ⟨?_, ?_, fun p hp => by cases hp⟩
    · intro h
      simp only [armFacadeResult] at h
      cases hex : examine_specimen fs path with
      | error e2 => simp [hex] at h
      | ok md =>
        simp only [hex] at h
        cases hnm : chmodNewMode mode md.mode with
        | none => simp only [hnm] at h; simp at h
        | some nm =>
          simp only [hnm] at h
          cases hav : adjust_vitality fs path nm with
          | ok fs1 => simp [runCLI, hex, hnm, hav]
          | error e2 => simp only [hav] at h; simp [asUnit] at h
    · intro e h
      simp only [armFacadeResult] at h
      cases hex : examine_specimen fs path with
      | error e2 =>
        simp only [hex] at h
        simp at h
        subst h
        simp [runCLI, hex]
      | ok md =>
        simp only [hex] at h
        cases hnm : chmodNewMode mode md.mode with
        | none => simp only [hnm] at h; simp at h
        | some nm =>
          simp only [hnm] at h
          cases hav : adjust_vitality fs path nm with
          | ok fs1 => simp only [hav] at h; simp [asUnit] at h
          | error e2 =>
            simp only [hav] at h
            simp [asUnit] at h
            subst h
            simp [runCLI, hex, hnm, hav]
  case Exists path =>
    refine ⟨?_, ?_, ?_⟩
    · intro h
      simp [armFacadeResult] at h
    · intro e h
      simp [armFacadeResult] at h
    · intro p hp
      injection hp with h1
      subst h1
      exact ⟨rfl, le_refl 1⟩
  all_goals
    refine ⟨?_, ?_, fun p hp => by cases hp⟩
  all_goals
    first
    | (intro h
       simp only [runCLI]
       split
       · simp
       · rename_i e2 hr
         simp [armFacadeResult, asUnit, hr] at h)
    | (intro e h
       simp only [runCLI]
       split
       · rename_i v hr
         simp [armFacadeResult, asUnit, hr] at h
       · rename_i e2 hr
         simp [armFacadeResult, asUnit, hr] at h
         subst h
         simp)

theorem cli_exit_codes_witness :
    ((runCLI (.Resolve [97]) ⟨[([[97]], .dir 0o755)], []⟩).exitCode = 0 ∧
      1 ≤ (runCLI (.Resolve [97]) ⟨[([[97]], .dir 0o755)], []⟩).stdoutLines ∧
      (runCLI (.Resolve [97]) ⟨[([[97]], .dir 0o755)], []⟩).stderrLines = 0) ∧
    ((runCLI (.Resolve [97]) ⟨[], []⟩).exitCode = 1 ∧
      (runCLI (.Resolve [97]) ⟨[], []⟩).stderrLines = 1 ∧
      (runCLI (.Resolve [97]) ⟨[], []⟩).stdoutLines = 0) ∧
    «exists» ⟨[([[97]], .dir 0o755)], []⟩ [97] = true ∧
    (runCLI (.Exists [97]) ⟨[([[97]], .dir 0o755)], []⟩).exitCode = 0 ∧
    «exists» ⟨[], []⟩ [97] = false ∧
    (runCLI (.Exists [97]) ⟨[], []⟩).exitCode = 1 :=
  ⟨(cli_exit_codes (.Resolve [97]) ⟨[([[97]], .dir 0o755)], []⟩).1 (by rfl),
   (cli_exit_codes (.Resolve [97]) ⟨[], []⟩).2.1 .notFound (by rfl),
   by rfl,
   ((cli_exit_codes (.Exists [97]) ⟨[([[97]], .dir 0o755)], []⟩).2.2 [97] rfl).1.trans
     (by rfl),
   by rfl,
   ((cli_exit_codes (.Exists [97]) ⟨[], []⟩).2.2 [97] rfl).1.trans (by rfl)⟩
end Soil
